import Mathlib

/-!
# Verification of the MinusFiveBar backtest (`FiveBar.py`)

Shallow embedding of the repository's single source file `FiveBar.py`:
the momentum strategy (`FiveBarStrategy.next`), the daily equity sampler
(`EquityCurveAnalyzer.next`), the data fetch (`ohlcv`) and the backtest
driver (`run_backtest`).

The broker, the fill mechanics and the bar-replay loop live in the external
`backtrader` library, whose code is not part of this repository; those parts
are modelled from the specification (§4.2 Broker, §4.5 Engine, §9 fill
timing: a submitted order fills completely, one unit per trade, at the close
of the same bar that triggered the decision, immediately after the Strategy
call for that bar; the Equity Sampler observes the broker before the
Strategy acts on the bar).

Prices and cash are modelled as rationals (the Python floats, idealized).
Timestamps are seconds since the epoch as natural numbers; the calendar
date of a timestamp is its day number `ts / 86400`.
-/

/-- One bar of the feed, as the engine sees it: the strategy and the
analyzer read only the bar's datetime and close (`self.datas[0].close`,
`self.datas[0].datetime`); the remaining OHLCV columns are carried by
`Frame` below and never read inside the loop. -/
structure Bar where
  ts : Nat
  close : ℚ
  deriving Repr, DecidableEq, Inhabited

/-- Calendar date of a timestamp: its day number (`dt.date()`). -/
def dateOfTs (ts : Nat) : Nat := ts / 86400

/-- Calendar date of a bar. -/
def Bar.date (b : Bar) : Nat := dateOfTs b.ts

/-- Modelled from the spec: the broker state owned by the backtrader
engine — cash and the signed position size (§4.2). -/
structure Broker where
  cash : ℚ
  size : ℤ
  deriving Repr, DecidableEq

/-- Order sides the strategy can submit (`self.buy()`, `self.sell()`,
`self.close()`). -/
inductive Side where
  | buy
  | sell
  | close
  deriving Repr, DecidableEq

/-- Modelled from the spec: `apply_fill` (§4.2) — a buy adds one unit and
pays the fill price, a sell removes one unit and receives the fill price
(one unit per trade, no sizing algorithm), a close zeroes the position and
releases `price × size` into cash. Cash always moves by `−price × Δsize`. -/
def applyFill (b : Broker) (s : Side) (price : ℚ) : Broker :=
  match s with
  | Side.buy => { cash := b.cash - price, size := b.size + 1 }
  | Side.sell => { cash := b.cash + price, size := b.size - 1 }
  | Side.close => { cash := b.cash + price * b.size, size := 0 }

/-- Modelled from the spec: `portfolio_value` / `broker.getvalue()` (§4.2):
cash plus position size times the current price, recomputed from the state. -/
def portfolioValue (b : Broker) (price : ℚ) : ℚ := b.cash + b.size * price

/-- The decision body of `FiveBarStrategy.next`, translated from the source:
`barsSeen` is `len(self.datas[0])` (the number of bars seen so far,
including the current one), `size` is `self.position.size`, and `diff` is
`self.dataclose[0] - self.dataclose[-lookback]`.  Returns the order the
strategy submits on this bar, if any:

```
if len(self.datas[0]) <= self.params.lookback: return
diff = self.dataclose[0] - self.dataclose[-self.params.lookback]
if not self.position:
    if diff > 0: self.order = self.buy()
    elif diff < 0: self.order = self.sell()
else:
    if (self.position.size > 0 and diff < 0) or
       (self.position.size < 0 and diff > 0): self.close()
```
-/
def strategyNext (barsSeen lookback : Nat) (size : ℤ) (diff : ℚ) : Option Side :=
  if barsSeen ≤ lookback then none
  else if size = 0 then
    if 0 < diff then some Side.buy
    else if diff < 0 then some Side.sell
    else none
  else if (0 < size ∧ diff < 0) ∨ (size < 0 ∧ 0 < diff) then some Side.close
  else none

/-- The running state of one engine run: the broker, the log of fill events
`(bar index, side, fill price)`, the equity samples `(timestamp, portfolio
value)` recorded by `EquityCurveAnalyzer` (`self.dates` zipped with
`self.equity`), and the analyzer's `self.last_date`. -/
structure EngineState where
  broker : Broker
  fills : List (Nat × Side × ℚ)
  samples : List (Nat × ℚ)
  lastDate : Option Nat
  deriving Repr, DecidableEq

/-- The fresh engine state: starting cash, flat position, no fills, no
samples, `self.last_date = None`. -/
def initState (cash : ℚ) : EngineState :=
  { broker := { cash := cash, size := 0 }, fills := [], samples := [],
    lastDate := none }

/-- The sampling condition of `EquityCurveAnalyzer.next`, translated from
the source: `self.last_date is None or dt.date() != self.last_date.date()`. -/
def shouldSample (lastDate : Option Nat) (bar : Bar) : Bool :=
  match lastDate with
  | none => true
  | some d => dateOfTs bar.ts != dateOfTs d

/-- `EquityCurveAnalyzer.next`, translated from the source: on a bar whose
calendar date differs from `self.last_date.date()` (or when `last_date` is
`None`), append `(dt, broker.getvalue())` and set `last_date` to the bar's
datetime. -/
def analyzerNext (st : EngineState) (bar : Bar) : EngineState :=
  if shouldSample st.lastDate bar then
    { st with
      samples := st.samples ++ [(bar.ts, portfolioValue st.broker bar.close)],
      lastDate := some bar.ts }
  else st

/-- One iteration of the engine loop on bar `i` of the feed `bs`
(modelled from the spec, §4.5): invoke the Equity Sampler on the new bar,
invoke the Strategy (the source's `FiveBarStrategy.next`, with
`len(self.datas[0]) = i + 1` and `self.dataclose[-lookback]` the close of
bar `i - lookback`), and apply any submitted order immediately at the
current bar's close (§9), logging the fill. -/
def step (lookback : Nat) (bs : List Bar) (st : EngineState) (i : Nat) :
    EngineState :=
  let bar := bs.getD i default
  let st1 := analyzerNext st bar
  let diff := bar.close - (bs.getD (i - lookback) default).close
  match strategyNext (i + 1) lookback st1.broker.size diff with
  | none => st1
  | some s =>
      { st1 with
        broker := applyFill st1.broker s bar.close,
        fills := st1.fills ++ [(i, s, bar.close)] }

/-- The engine state after the first `n` bars of the feed have been
processed. -/
def runUpTo (lookback : Nat) (cash : ℚ) (bs : List Bar) : Nat → EngineState
  | 0 => initState cash
  | n + 1 => step lookback bs (runUpTo lookback cash bs n) n

/-- A full engine run over the feed (modelled from the spec, §4.5: a
single-pass deterministic iteration over every bar). -/
def runEngine (lookback : Nat) (cash : ℚ) (bs : List Bar) : EngineState :=
  runUpTo lookback cash bs bs.length

/-- The five-bar scenario of spec §8: closes `[10, 10, 10, 11, 9]`, one bar
per timestamp. -/
def scenarioBars : List Bar :=
  [⟨0, 10⟩, ⟨1, 10⟩, ⟨2, 10⟩, ⟨3, 11⟩, ⟨4, 9⟩]

/-- A three-bar feed with constant close 7. -/
def constBars : List Bar := [⟨0, 7⟩, ⟨1, 7⟩, ⟨2, 7⟩]

/-- Bar `i` is the first bar of its calendar date: no earlier bar of the
feed falls on the same date. -/
def firstOfDate (bs : List Bar) (i : Nat) : Bool :=
  (List.range i).all fun j =>
    dateOfTs (bs.getD j default).ts != dateOfTs (bs.getD i default).ts

/-- The samples the spec describes for the first `n` bars: one sample per
first-of-date bar `i`, holding that bar's timestamp and the broker's
portfolio value at that bar (the state entering bar `i`, valued at bar
`i`'s close). -/
def expectedUpTo (lookback : Nat) (cash : ℚ) (bs : List Bar) (n : Nat) :
    List (Nat × ℚ) :=
  ((List.range n).filter (firstOfDate bs)).map fun i =>
    ((bs.getD i default).ts,
      portfolioValue (runUpTo lookback cash bs i).broker
        (bs.getD i default).close)

/-- The spec's expected equity samples for the whole feed. -/
def expectedSamples (lookback : Nat) (cash : ℚ) (bs : List Bar) :
    List (Nat × ℚ) :=
  expectedUpTo lookback cash bs bs.length

/-- The Python exception classes that can arise inside `ohlcv`'s try
block: `requests.RequestException` and `ValueError` are the two classes
the except clauses catch; `KeyError` (a missing dict key at `data['s']`,
`data['o']`, …) and `AttributeError` (`data.get` on a non-dict JSON body)
are neither, so they propagate. -/
inductive PyError where
  | requestException (msg : String)
  | valueError (msg : String)
  | keyError (key : String)
  | attributeError (msg : String)
  deriving Repr, DecidableEq

/-- Whether `ohlcv`'s except clauses catch the exception: only
`requests.RequestException` and `ValueError` are listed. -/
def isCaught : PyError → Bool
  | PyError.requestException _ => true
  | PyError.valueError _ => true
  | PyError.keyError _ => false
  | PyError.attributeError _ => false

/-- A decoded JSON dict as `ohlcv` reads it: every field the code touches
may be absent.  `data.get('t')` returns `None` when `t` is missing (no
exception); `data['s']`, `data['o']`, `data['h']`, `data['l']`,
`data['c']`, `data['v']` raise `KeyError` when missing. -/
structure ApiDict where
  s : Option String
  t : Option (List Nat)
  o : Option (List ℚ)
  h : Option (List ℚ)
  l : Option (List ℚ)
  c : Option (List ℚ)
  v : Option (List ℚ)
  deriving Repr, DecidableEq

/-- The decoded JSON body: a dict, or some other JSON shape (a list,
string, number, …) on which `data.get` raises `AttributeError`. -/
inductive JsonBody where
  | nonDict
  | dict (d : ApiDict)
  deriving Repr, DecidableEq

/-- The outcome of the HTTP fetch inside `ohlcv`: either the request layer
raised (`requests.RequestException`, which also covers
`raise_for_status`), or a JSON body was decoded. -/
inductive ApiOutcome where
  | netError (msg : String)
  | json (body : JsonBody)
  deriving Repr, DecidableEq

/-- The DataFrame `ohlcv` builds: the DateTime, Open, High, Low, Close and
Volume columns.  The value columns are `pd.Series` of floats; an entry may
be `NaN` (modelled as `none`) where pandas padded a shorter column. -/
structure Frame where
  dateTime : List Nat
  opens : List (Option ℚ)
  highs : List (Option ℚ)
  lows : List (Option ℚ)
  closes : List (Option ℚ)
  volumes : List (Option ℚ)
  deriving Repr, DecidableEq

/-- `pd.DataFrame()`: the empty frame. -/
def emptyFrame : Frame := ⟨[], [], [], [], [], []⟩

/-- A column as pandas materializes it against the frame's index of
length `n`: the first `n` entries of the series, `NaN` (`none`) past the
series' own length. -/
def padTo : Nat → List ℚ → List (Option ℚ)
  | 0, _ => []
  | n + 1, [] => none :: padTo n []
  | n + 1, x :: xs => some x :: padTo n xs

/-- `pd.DataFrame({'DateTime': pd.to_datetime(data['t'], unit='s'),
'Open': pd.Series(data['o'], dtype=float), …})`, translated from the
source together with the dict-literal evaluation that feeds it: the value
expressions are evaluated in order, so the first missing key among
`o`, `h`, `l`, `c`, `v` raises that `KeyError`.  With all five present,
pandas aligns the `Series` columns on the union of their indexes — a
range of length the maximum series length — padding shorter columns with
`NaN`; the `DateTime` array is not a `Series` and must match that index
length exactly, else the constructor raises
`ValueError` (caught by the except clause). -/
def buildFrame (t : List Nat) (oo hh ll cc vv : Option (List ℚ)) :
    Except PyError Frame :=
  match oo, hh, ll, cc, vv with
  | none, _, _, _, _ => Except.error (PyError.keyError "o")
  | some _, none, _, _, _ => Except.error (PyError.keyError "h")
  | some _, some _, none, _, _ => Except.error (PyError.keyError "l")
  | some _, some _, some _, none, _ => Except.error (PyError.keyError "c")
  | some _, some _, some _, some _, none => Except.error (PyError.keyError "v")
  | some o, some h, some l, some c, some v =>
      let mmax := (((o.length.max h.length).max l.length).max c.length).max
        v.length
      if t.length = mmax then
        Except.ok ⟨t, padTo mmax o, padTo mmax h, padTo mmax l, padTo mmax c,
          padTo mmax v⟩
      else
        Except.error
          (PyError.valueError "array length does not match index length")

/-- The body of `ohlcv` applied to a decoded dict, translated from the
source.  `if not data.get('t') or data['s'] != 'ok':` — the left operand
is true when `t` is missing or empty (then the `ValueError` is raised
without touching `data['s']`, by short-circuit); otherwise `data['s']`
raises `KeyError` when `s` is missing, and a status other than `"ok"`
raises the same `ValueError`.  Past the guard, the DataFrame is built. -/
def ohlcvDict (d : ApiDict) : Except PyError Frame :=
  if (d.t.getD []).isEmpty then
    Except.error (PyError.valueError "Invalid or empty data returned from API")
  else
    match d.s with
    | none => Except.error (PyError.keyError "s")
    | some s =>
        if s ≠ "ok" then
          Except.error
            (PyError.valueError "Invalid or empty data returned from API")
        else buildFrame (d.t.getD []) d.o d.h d.l d.c d.v

/-- The try block of `ohlcv`, translated from the source, with
`Except.error` where the Python raises: a request failure propagates
`requests.RequestException`; a non-dict JSON body makes `data.get` raise
`AttributeError`; a dict body proceeds as `ohlcvDict`. -/
def ohlcvTry (r : ApiOutcome) : Except PyError Frame :=
  match r with
  | ApiOutcome.netError msg => Except.error (PyError.requestException msg)
  | ApiOutcome.json JsonBody.nonDict =>
      Except.error (PyError.attributeError "list object has no attribute get")
  | ApiOutcome.json (JsonBody.dict d) => ohlcvDict d

/-- `ohlcv`, translated from the source: the except clauses catch exactly
`requests.RequestException` and `ValueError` (printing the message and
returning `pd.DataFrame()`); any other exception — `KeyError`,
`AttributeError` — propagates to the caller. -/
def ohlcv (r : ApiOutcome) : Except PyError Frame :=
  match ohlcvTry r with
  | Except.ok f => Except.ok f
  | Except.error e =>
      if isCaught e then Except.ok emptyFrame else Except.error e

/-- The bar sequence the feed presents to the engine, from the datetime
and close columns (`bt.feeds.PandasData`; only these two columns are read
inside the loop).  Rows are consumed while the close is present; no claim
below exercises a `NaN` close. -/
def toBars : List Nat → List (Option ℚ) → List Bar
  | t :: ts, some c :: cs => ⟨t, c⟩ :: toBars ts cs
  | _, _ => []

/-- The frame's bar sequence. -/
def Frame.bars (f : Frame) : List Bar := toBars f.dateTime f.closes

/-- `run_backtest`, translated from the source: fetch the data, build the
feed from the frame, and run the strategy with its default `lookback = 3`
and the starting cash 101 set by `cerebro.broker.set_cash`; the loop
itself is the spec-modelled engine (§4.5).  An exception escaping `ohlcv`
propagates through `run_backtest` before the loop starts. -/
def runBacktest (r : ApiOutcome) : Except PyError EngineState :=
  Except.map (fun f => runEngine 3 101 (Frame.bars f)) (ohlcv r)

/-- The guard of `FiveBarStrategy.next`: with at most `lookback` bars seen,
the strategy returns without acting. -/
theorem strategyNext_none_of_guard (barsSeen lookback : Nat) (size : ℤ)
    (diff : ℚ) (h : barsSeen ≤ lookback) :
    strategyNext barsSeen lookback size diff = none := by
  unfold strategyNext
  rw [if_pos h]

/-- A flat strategy with `diff = 0` takes no action. -/
theorem strategyNext_none_of_zero_diff (barsSeen lookback : Nat) :
    strategyNext barsSeen lookback 0 0 = none := by
  unfold strategyNext
  by_cases hg : barsSeen ≤ lookback
  · rw [if_pos hg]
  · rw [if_neg hg, if_pos rfl, if_neg (lt_irrefl (0 : ℚ)),
      if_neg (lt_irrefl (0 : ℚ))]

/-- The equity sampler never touches the broker. -/
theorem analyzerNext_broker (st : EngineState) (bar : Bar) :
    (analyzerNext st bar).broker = st.broker := by
  unfold analyzerNext
  split
  · rfl
  · rfl

/-- The equity sampler never touches the fill log. -/
theorem analyzerNext_fills (st : EngineState) (bar : Bar) :
    (analyzerNext st bar).fills = st.fills := by
  unfold analyzerNext
  split
  · rfl
  · rfl

/-- A loop iteration on which the strategy submits nothing only runs the
equity sampler. -/
theorem step_of_none (lookback : Nat) (bs : List Bar) (st : EngineState)
    (i : Nat)
    (h : strategyNext (i + 1) lookback
        (analyzerNext st (bs.getD i default)).broker.size
        ((bs.getD i default).close - (bs.getD (i - lookback) default).close)
        = none) :
    step lookback bs st i = analyzerNext st (bs.getD i default) := by
  simp only [step]
  rw [h]

/-- Any entry of the fill log after one loop iteration is either an old
entry or the iteration's own fill, at the current bar's close. -/
theorem step_fills_cases (lookback : Nat) (bs : List Bar) (st : EngineState)
    (i : Nat) :
    ∀ e ∈ (step lookback bs st i).fills,
      e ∈ st.fills ∨ ∃ s, e = (i, s, (bs.getD i default).close) := by
  intro e he
  simp only [step] at he
  split at he
  · rw [analyzerNext_fills] at he
    exact Or.inl he
  · rw [analyzerNext_fills] at he
    rcases List.mem_append.mp he with hmem | hone
    · exact Or.inl hmem
    · rcases List.mem_singleton.mp hone with rfl
      exact Or.inr ⟨_, rfl⟩

/-- Every entry of the fill log of a partial run carries the close price of
the bar at which it was created. -/
theorem runUpTo_fills_price (lookback : Nat) (cash : ℚ) (bs : List Bar) :
    ∀ n, ∀ e ∈ (runUpTo lookback cash bs n).fills,
      e.2.2 = (bs.getD e.1 default).close := by
  intro n
  induction n with
  | zero =>
    intro e he
    exact absurd he (List.not_mem_nil e)
  | succ k ih =>
    intro e he
    simp only [runUpTo] at he
    rcases step_fills_cases lookback bs (runUpTo lookback cash bs k) k e he
        with hmem | ⟨s, rfl⟩
    · exact ih e hmem
    · rfl

/-- The fill log of the spec §8 scenario run, computed. -/
theorem scenario_fills_eq :
    (runEngine 3 100 scenarioBars).fills
      = [(3, Side.buy, 11), (4, Side.close, 9)] := by
  with_unfolding_all rfl

/-- C1: for every bar at which the lookback guard is satisfied
(`lookback < barsSeen`), `FiveBarStrategy.next` follows exactly the spec's
transition table on `diff`: flat submits a buy on `diff > 0`, a sell on
`diff < 0` and nothing on `diff = 0`; long submits a close exactly when
`diff < 0`; short submits a close exactly when `diff > 0`.  The strategy
returns at most one order per bar (`Option Side`). -/
theorem strategyNext_transition_table (barsSeen lookback : Nat) (size : ℤ)
    (diff : ℚ) (hg : lookback < barsSeen) :
    (size = 0 → strategyNext barsSeen lookback size diff
      = if 0 < diff then some Side.buy
        else if diff < 0 then some Side.sell else none) ∧
    (0 < size → strategyNext barsSeen lookback size diff
      = if diff < 0 then some Side.close else none) ∧
    (size < 0 → strategyNext barsSeen lookback size diff
      = if 0 < diff then some Side.close else none) := by
  have hns : ¬ barsSeen ≤ lookback := not_le.mpr hg
  unfold strategyNext
  rw [if_neg hns]
  refine ⟨?_, ?_, ?_⟩
  · intro h0
    rw [if_pos h0]
  · intro hpos
    have hne : ¬ size = 0 := by omega
    rw [if_neg hne]
    by_cases hd : diff < 0
    · rw [if_pos (Or.inl ⟨hpos, hd⟩), if_pos hd]
    · have hcond : ¬ ((0 < size ∧ diff < 0) ∨ (size < 0 ∧ 0 < diff)) := by
        rintro (⟨_, h⟩ | ⟨h, _⟩)
        · exact hd h
        · omega
      rw [if_neg hcond, if_neg hd]
  · intro hneg
    have hne : ¬ size = 0 := by omega
    rw [if_neg hne]
    by_cases hd : 0 < diff
    · rw [if_pos (Or.inr ⟨hneg, hd⟩), if_pos hd]
    · have hcond : ¬ ((0 < size ∧ diff < 0) ∨ (size < 0 ∧ 0 < diff)) := by
        rintro (⟨h, _⟩ | ⟨_, h⟩)
        · omega
        · exact hd h
      rw [if_neg hcond, if_neg hd]

/-- Witness for C1: at `barsSeen = 4`, `lookback = 3`, a flat position and
`diff = 1`, the guard holds and the table gives a buy. -/
theorem strategyNext_transition_table_witness :
    (3 : Nat) < 4 ∧
      ((0 : ℤ) = 0 → strategyNext 4 3 0 1
        = if (0 : ℚ) < 1 then some Side.buy
          else if (1 : ℚ) < 0 then some Side.sell else none) := by
  refine ⟨by decide, ?_⟩
  exact (strategyNext_transition_table 4 3 0 1 (by decide)).1

/-- C2: the spec §8 scenario — closes `[10,10,10,11,9]`, `lookback = 3`,
starting cash `100`: no order before bar index 3, exactly one buy fill at
price 11 on bar 3, exactly one close fill at price 9 on bar 4, final cash
98, final position flat. -/
theorem scenario_run_correct :
    (runEngine 3 100 scenarioBars).fills
        = [(3, Side.buy, 11), (4, Side.close, 9)] ∧
      (runEngine 3 100 scenarioBars).broker.cash = 98 ∧
      (runEngine 3 100 scenarioBars).broker.size = 0 := by
  refine ⟨?_, ?_, ?_⟩ <;> with_unfolding_all rfl

/-- C3: with fewer than `lookback + 1` bars in the feed, the guard of
`FiveBarStrategy.next` fails on every bar, so the whole run submits no
order: after any number of processed bars the fill log is empty and the
position is flat with the starting cash untouched. -/
theorem short_feed_never_trades (lookback : Nat) (cash : ℚ) (bs : List Bar)
    (_hl : 1 ≤ lookback) (hshort : bs.length < lookback + 1) :
    ∀ n, n ≤ bs.length →
      (runUpTo lookback cash bs n).fills = [] ∧
      (runUpTo lookback cash bs n).broker.size = 0 ∧
      (runUpTo lookback cash bs n).broker.cash = cash := by
  intro n
  induction n with
  | zero =>
    intro _
    exact ⟨rfl, rfl, rfl⟩
  | succ k ih =>
    intro hk1
    obtain ⟨hf, hs, hc⟩ := ih (Nat.le_of_succ_le hk1)
    have hguard : k + 1 ≤ lookback := by omega
    have hstep := step_of_none lookback bs (runUpTo lookback cash bs k) k
      (strategyNext_none_of_guard _ _ _ _ hguard)
    simp only [runUpTo, hstep, analyzerNext_fills, analyzerNext_broker]
    exact ⟨hf, hs, hc⟩

/-- Witness for C3: a two-bar feed with `lookback = 3` finishes the run
with no fills, a flat position and the starting cash. -/
theorem short_feed_never_trades_witness :
    1 ≤ 3 ∧ ([⟨0, 10⟩, ⟨1, 11⟩] : List Bar).length < 3 + 1 ∧
      ((runUpTo 3 5 [⟨0, 10⟩, ⟨1, 11⟩] 2).fills = [] ∧
        (runUpTo 3 5 [⟨0, 10⟩, ⟨1, 11⟩] 2).broker.size = 0 ∧
        (runUpTo 3 5 [⟨0, 10⟩, ⟨1, 11⟩] 2).broker.cash = 5) :=
  ⟨by decide, by decide,
    short_feed_never_trades 3 5 [⟨0, 10⟩, ⟨1, 11⟩] (by decide) (by decide) 2
      (by decide)⟩

/-- C6: the backtest is deterministic — two engine runs over the same bar
sequence from freshly constructed engines report the same portfolio value
at every price and the same equity-sample sequence. -/
theorem run_deterministic (lookback : Nat) (cash : ℚ) (bs : List Bar)
    (r1 r2 : EngineState) (h1 : r1 = runEngine lookback cash bs)
    (h2 : r2 = runEngine lookback cash bs) :
    (∀ q : ℚ, portfolioValue r1.broker q = portfolioValue r2.broker q) ∧
      r1.samples = r2.samples := by
  subst h1
  subst h2
  exact ⟨fun _ => rfl, rfl⟩

/-- Witness for C6: two replays of the spec §8 scenario agree. -/
theorem run_deterministic_witness :
    (∀ q : ℚ,
        portfolioValue (runEngine 3 100 scenarioBars).broker q
          = portfolioValue (runEngine 3 100 scenarioBars).broker q) ∧
      (runEngine 3 100 scenarioBars).samples
        = (runEngine 3 100 scenarioBars).samples :=
  run_deterministic 3 100 scenarioBars _ _ rfl rfl

/-- C7 counterexample: in the spec §8 scenario the order requested at bar
index 3 fills at price 11, the close of bar 3 itself, while the close of
bar 4 is 9 — so orders are not filled at the close of bar `N + 1`. -/
theorem fill_not_at_next_bar_close :
    (runEngine 3 100 scenarioBars).fills.getD 0 (0, Side.buy, 0)
        = (3, Side.buy, 11) ∧
      (scenarioBars.getD (3 + 1) default).close = 9 ∧
      (11 : ℚ) ≠ 9 := by
  refine ⟨?_, ?_, ?_⟩
  · rw [scenario_fills_eq]
    rfl
  · with_unfolding_all rfl
  · norm_num

/-- C7 amended: every order requested at bar index `N` is filled
unconditionally and completely at the close price of bar `N` itself (the
bar that triggered the decision): every fill-log entry carries its own
bar's close, and a fill always moves the position by the full unit (buy
`+1`, sell `−1`) or flattens it entirely (close) — no partial fills, no
rejections. -/
theorem fills_at_same_bar_close (lookback : Nat) (cash : ℚ) (bs : List Bar) :
    (∀ e ∈ (runEngine lookback cash bs).fills,
        e.2.2 = (bs.getD e.1 default).close) ∧
      (∀ (b : Broker) (q : ℚ),
        (applyFill b Side.buy q).size = b.size + 1 ∧
        (applyFill b Side.sell q).size = b.size - 1 ∧
        (applyFill b Side.close q).size = 0) := by
  refine ⟨?_, ?_⟩
  · exact runUpTo_fills_price lookback cash bs bs.length
  · intro b q
    exact ⟨rfl, rfl, rfl⟩

/-- Witness for C7 (amended): the buy logged at bar 3 of the spec §8
scenario fills at that bar's own close. -/
theorem fills_at_same_bar_close_witness :
    ((3, Side.buy, (11 : ℚ)) : Nat × Side × ℚ).2.2
      = (scenarioBars.getD ((3, Side.buy, (11 : ℚ)) : Nat × Side × ℚ).1
          default).close :=
  (fills_at_same_bar_close 3 100 scenarioBars).1 (3, Side.buy, 11)
    (by rw [scenario_fills_eq]; exact List.mem_cons_self _ _)

/-- C8: on a feed with a constant close the strategy's `diff` is zero at
every guarded bar, so the run submits no order and ends with the starting
cash, a flat position, and a portfolio value equal to the starting cash at
any price. -/
theorem const_close_run (lookback : Nat) (cash v : ℚ) (bs : List Bar)
    (hconst : ∀ b ∈ bs, b.close = v) :
    (runEngine lookback cash bs).fills = [] ∧
      (runEngine lookback cash bs).broker.size = 0 ∧
      (runEngine lookback cash bs).broker.cash = cash ∧
      ∀ q : ℚ, portfolioValue (runEngine lookback cash bs).broker q = cash := by
  have main : ∀ n, n ≤ bs.length →
      (runUpTo lookback cash bs n).fills = [] ∧
      (runUpTo lookback cash bs n).broker = ⟨cash, 0⟩ := by
    intro n
    induction n with
    | zero =>
      intro _
      exact ⟨rfl, rfl⟩
    | succ k ih =>
      intro hk1
      obtain ⟨hf, hb⟩ := ih (Nat.le_of_succ_le hk1)
      have hkl : k < bs.length := hk1
      have hclose1 : (bs.getD k default).close = v := by
        rw [List.getD_eq_getElem bs default hkl]
        exact hconst _ (List.getElem_mem hkl)
      have hk2 : k - lookback < bs.length :=
        lt_of_le_of_lt (Nat.sub_le k lookback) hkl
      have hclose2 : (bs.getD (k - lookback) default).close = v := by
        rw [List.getD_eq_getElem bs default hk2]
        exact hconst _ (List.getElem_mem hk2)
      have hnone : strategyNext (k + 1) lookback
          (analyzerNext (runUpTo lookback cash bs k)
            (bs.getD k default)).broker.size
          ((bs.getD k default).close
            - (bs.getD (k - lookback) default).close) = none := by
        rw [hclose1, hclose2, sub_self, analyzerNext_broker, hb]
        exact strategyNext_none_of_zero_diff _ _
      have hstep := step_of_none lookback bs (runUpTo lookback cash bs k) k
        hnone
      simp only [runUpTo, hstep, analyzerNext_fills, analyzerNext_broker]
      exact ⟨hf, hb⟩
  obtain ⟨hf, hb⟩ := main bs.length le_rfl
  refine ⟨hf, ?_, ?_, ?_⟩
  · rw [runEngine, hb]
  · rw [runEngine, hb]
  · intro q
    rw [runEngine, hb]
    simp [portfolioValue]

/-- Witness for C8: a three-bar feed with constant close 7, `lookback = 1`
and starting cash 50 ends with no fills, a flat position, cash 50 and
portfolio value 50 at price 7. -/
theorem const_close_run_witness :
    (∀ b ∈ constBars, b.close = 7) ∧
      (runEngine 1 50 constBars).fills = [] ∧
      portfolioValue (runEngine 1 50 constBars).broker 7 = 50 := by
  have hconst : ∀ b ∈ constBars, b.close = 7 := by
    intro b hb
    fin_cases hb <;> rfl
  exact ⟨hconst, (const_close_run 1 50 7 constBars hconst).1,
    (const_close_run 1 50 7 constBars hconst).2.2.2 7⟩

/-- Unfolding of the engine run by one bar. -/
theorem runUpTo_succ (lookback : Nat) (cash : ℚ) (bs : List Bar) (n : Nat) :
    runUpTo lookback cash bs (n + 1)
      = step lookback bs (runUpTo lookback cash bs n) n := rfl

/-- When the sampling condition holds, a sample of the current broker value
at the current close is appended. -/
theorem analyzerNext_true_samples (st : EngineState) (bar : Bar)
    (h : shouldSample st.lastDate bar = true) :
    (analyzerNext st bar).samples
      = st.samples ++ [(bar.ts, portfolioValue st.broker bar.close)] := by
  unfold analyzerNext
  rw [if_pos h]

/-- When the sampling condition holds, `last_date` becomes the current
bar's datetime. -/
theorem analyzerNext_true_lastDate (st : EngineState) (bar : Bar)
    (h : shouldSample st.lastDate bar = true) :
    (analyzerNext st bar).lastDate = some bar.ts := by
  unfold analyzerNext
  rw [if_pos h]

/-- When the sampling condition fails, the analyzer does nothing. -/
theorem analyzerNext_false (st : EngineState) (bar : Bar)
    (h : shouldSample st.lastDate bar = false) :
    analyzerNext st bar = st := by
  unfold analyzerNext
  rw [if_neg]
  rw [h]
  exact Bool.false_ne_true

/-- The strategy part of a loop iteration never touches the samples. -/
theorem step_samples (lookback : Nat) (bs : List Bar) (st : EngineState)
    (i : Nat) :
    (step lookback bs st i).samples
      = (analyzerNext st (bs.getD i default)).samples := by
  simp only [step]
  split
  · rfl
  · rfl

/-- The strategy part of a loop iteration never touches `last_date`. -/
theorem step_lastDate (lookback : Nat) (bs : List Bar) (st : EngineState)
    (i : Nat) :
    (step lookback bs st i).lastDate
      = (analyzerNext st (bs.getD i default)).lastDate := by
  simp only [step]
  split
  · rfl
  · rfl

/-- Strictly increasing timestamps, read off positionally. -/
theorem getD_ts_lt (bs : List Bar)
    (hmono : bs.Pairwise fun a b => a.ts < b.ts) (i j : Nat) (hij : i < j)
    (hj : j < bs.length) :
    (bs.getD i default).ts < (bs.getD j default).ts := by
  have hi : i < bs.length := lt_trans hij hj
  rw [List.getD_eq_getElem bs default hi, List.getD_eq_getElem bs default hj]
  exact List.pairwise_iff_getElem.mp hmono i j hi hj hij

/-- With strictly increasing timestamps, calendar dates are monotone along
the feed. -/
theorem getD_date_le (bs : List Bar)
    (hmono : bs.Pairwise fun a b => a.ts < b.ts) (i j : Nat) (hij : i ≤ j)
    (hj : j < bs.length) :
    dateOfTs (bs.getD i default).ts ≤ dateOfTs (bs.getD j default).ts := by
  rcases Nat.lt_or_ge i j with h | h
  · exact Nat.div_le_div_right (le_of_lt (getD_ts_lt bs hmono i j h hj))
  · rw [le_antisymm hij h]

/-- `firstOfDate`, unfolded to its defining property. -/
theorem firstOfDate_iff (bs : List Bar) (i : Nat) :
    firstOfDate bs i = true ↔
      ∀ j, j < i →
        dateOfTs (bs.getD j default).ts ≠ dateOfTs (bs.getD i default).ts := by
  unfold firstOfDate
  rw [List.all_eq_true]
  constructor
  · intro hall j hj
    exact bne_iff_ne.mp (hall j (List.mem_range.mpr hj))
  · intro hfa j hjm
    exact bne_iff_ne.mpr (hfa j (List.mem_range.mp hjm))

/-- The expected-sample sequence grows by one entry exactly at
first-of-date bars. -/
theorem expectedUpTo_succ (lookback : Nat) (cash : ℚ) (bs : List Bar)
    (k : Nat) :
    expectedUpTo lookback cash bs (k + 1)
      = expectedUpTo lookback cash bs k ++
        (if firstOfDate bs k then
          [((bs.getD k default).ts,
            portfolioValue (runUpTo lookback cash bs k).broker
              (bs.getD k default).close)]
        else []) := by
  unfold expectedUpTo
  rw [List.range_succ, List.filter_append, List.map_append]
  congr 1
  by_cases h : firstOfDate bs k
  · simp [h]
  · simp [h]

/-- Main sampler invariant, by induction over the run: after `n` bars the
recorded samples are exactly the expected ones, and `last_date` is unset
only before the first bar and otherwise carries the calendar date of the
bar just processed. -/
theorem runUpTo_sampler_spec (lookback : Nat) (cash : ℚ) (bs : List Bar)
    (hmono : bs.Pairwise fun a b => a.ts < b.ts) :
    ∀ n, n ≤ bs.length →
      (runUpTo lookback cash bs n).samples = expectedUpTo lookback cash bs n ∧
      ((runUpTo lookback cash bs n).lastDate = none → n = 0) ∧
      (∀ k, n = k + 1 →
        ∃ t, (runUpTo lookback cash bs n).lastDate = some t ∧
          dateOfTs t = dateOfTs (bs.getD k default).ts) := by
  intro n
  induction n with
  | zero =>
    intro _
    exact ⟨rfl, fun _ => rfl, fun k hk => absurd hk (by omega)⟩
  | succ k ih =>
    intro hk1
    obtain ⟨hsamp, _, hlast⟩ := ih (Nat.le_of_succ_le hk1)
    have hkl : k < bs.length := hk1
    rcases Nat.eq_zero_or_pos k with hk0 | hkpos
    · subst hk0
      have htrue : shouldSample (runUpTo lookback cash bs 0).lastDate
          (bs.getD 0 default) = true := rfl
      refine ⟨?_, ?_, ?_⟩
      · rw [runUpTo_succ, step_samples, analyzerNext_true_samples _ _ htrue,
          hsamp, expectedUpTo_succ,
          if_pos (show firstOfDate bs 0 = true from rfl)]
      · intro hcon
        rw [runUpTo_succ, step_lastDate,
          analyzerNext_true_lastDate _ _ htrue] at hcon
        cases hcon
      · intro m hm
        obtain rfl : m = 0 := by omega
        exact ⟨(bs.getD 0 default).ts,
          by rw [runUpTo_succ, step_lastDate,
            analyzerNext_true_lastDate _ _ htrue], rfl⟩
    · obtain ⟨m, rfl⟩ : ∃ m, k = m + 1 := ⟨k - 1, by omega⟩
      obtain ⟨t, htl, htd⟩ := hlast m rfl
      rcases eq_or_ne (dateOfTs (bs.getD (m + 1) default).ts) (dateOfTs t)
          with heq | hne
      · -- same calendar date: no new sample
        have hfalse : shouldSample (runUpTo lookback cash bs (m + 1)).lastDate
            (bs.getD (m + 1) default) = false := by
          rw [htl]
          show (dateOfTs (bs.getD (m + 1) default).ts != dateOfTs t) = false
          rw [heq]
          exact bne_self_eq_false _
        have hstep := analyzerNext_false (runUpTo lookback cash bs (m + 1))
          (bs.getD (m + 1) default) hfalse
        have hnotfirst : ¬ firstOfDate bs (m + 1) = true := by
          intro hfd
          exact (firstOfDate_iff bs (m + 1)).mp hfd m (by omega)
            (heq.trans htd).symm
        refine ⟨?_, ?_, ?_⟩
        · rw [runUpTo_succ, step_samples, hstep, hsamp,
            expectedUpTo_succ lookback cash bs (m + 1), if_neg hnotfirst,
            List.append_nil]
        · intro hcon
          rw [runUpTo_succ, step_lastDate, hstep, htl] at hcon
          cases hcon
        · intro m2 hm2
          obtain rfl : m2 = m + 1 := by omega
          exact ⟨t, by rw [runUpTo_succ, step_lastDate, hstep, htl],
            heq.symm⟩
      · -- new calendar date: a sample is taken at the date's first bar
        have htrue2 : shouldSample (runUpTo lookback cash bs (m + 1)).lastDate
            (bs.getD (m + 1) default) = true := by
          rw [htl]
          exact bne_iff_ne.mpr hne
        have hne2 : dateOfTs (bs.getD m default).ts
            ≠ dateOfTs (bs.getD (m + 1) default).ts := by
          rw [← htd]
          exact fun h => hne h.symm
        have hmlt : dateOfTs (bs.getD m default).ts
            < dateOfTs (bs.getD (m + 1) default).ts :=
          lt_of_le_of_ne (getD_date_le bs hmono m (m + 1) (by omega) hkl) hne2
        have hfirst : firstOfDate bs (m + 1) = true := by
          rw [firstOfDate_iff]
          intro j hj
          have hjle : dateOfTs (bs.getD j default).ts
              ≤ dateOfTs (bs.getD m default).ts :=
            getD_date_le bs hmono j m (by omega) (by omega)
          exact Nat.ne_of_lt (lt_of_le_of_lt hjle hmlt)
        refine ⟨?_, ?_, ?_⟩
        · rw [runUpTo_succ, step_samples,
            analyzerNext_true_samples _ _ htrue2, hsamp,
            expectedUpTo_succ lookback cash bs (m + 1), if_pos hfirst]
        · intro hcon
          rw [runUpTo_succ, step_lastDate,
            analyzerNext_true_lastDate _ _ htrue2] at hcon
          cases hcon
        · intro m2 hm2
          obtain rfl : m2 = m + 1 := by omega
          exact ⟨(bs.getD (m + 1) default).ts,
            by rw [runUpTo_succ, step_lastDate,
              analyzerNext_true_lastDate _ _ htrue2], rfl⟩

/-- On a feed with strictly increasing timestamps the recorded equity
samples are exactly the expected ones. -/
theorem samples_eq_expected (lookback : Nat) (cash : ℚ) (bs : List Bar)
    (hmono : bs.Pairwise fun a b => a.ts < b.ts) :
    (runEngine lookback cash bs).samples = expectedSamples lookback cash bs :=
  (runUpTo_sampler_spec lookback cash bs hmono bs.length le_rfl).1

/-- The samples of the spec §8 scenario run, computed: all five bars fall
on calendar day 0, so only the first bar is sampled, at value 100. -/
theorem scenario_samples_eq :
    (runEngine 3 100 scenarioBars).samples = [(0, 100)] := by
  with_unfolding_all rfl

/-- C4: on any feed with strictly increasing timestamps, the equity
sampler records exactly the expected samples — one `(timestamp, portfolio
value)` pair per first-of-date bar, valued from the broker state at that
bar — the recorded dates are pairwise distinct, and a calendar date has a
sample exactly when some bar of the feed falls on it. -/
theorem sampler_one_per_date (lookback : Nat) (cash : ℚ) (bs : List Bar)
    (hmono : bs.Pairwise fun a b => a.ts < b.ts) :
    (runEngine lookback cash bs).samples = expectedSamples lookback cash bs ∧
      ((runEngine lookback cash bs).samples.map fun p => dateOfTs p.1).Nodup ∧
      ∀ d, (∃ b ∈ bs, dateOfTs b.ts = d) ↔
        ∃ p ∈ (runEngine lookback cash bs).samples, dateOfTs p.1 = d := by
  have hse := samples_eq_expected lookback cash bs hmono
  refine ⟨hse, ?_, ?_⟩
  · rw [hse]
    unfold expectedSamples expectedUpTo
    rw [List.map_map]
    refine List.Nodup.map_on ?_ (List.Nodup.filter _ (List.nodup_range bs.length))
    intro x hx y hy hxy
    obtain ⟨_, hxf⟩ := List.mem_filter.mp hx
    obtain ⟨_, hyf⟩ := List.mem_filter.mp hy
    have hdates : dateOfTs (bs.getD x default).ts
        = dateOfTs (bs.getD y default).ts := hxy
    by_contra hne
    rcases Nat.lt_or_ge x y with hlt | hge
    · exact (firstOfDate_iff bs y).mp hyf x hlt hdates
    · exact (firstOfDate_iff bs x).mp hxf y (by omega) hdates.symm
  · intro d
    constructor
    · rintro ⟨b, hbmem, rfl⟩
      obtain ⟨j, hj, hbj⟩ := List.getElem_of_mem hbmem
      have hex : ∃ i, i < bs.length ∧
          dateOfTs (bs.getD i default).ts = dateOfTs b.ts :=
        ⟨j, hj, by rw [List.getD_eq_getElem bs default hj, hbj]⟩
      obtain ⟨hi0len, hi0date⟩ := Nat.find_spec hex
      have hfirst : firstOfDate bs (Nat.find hex) = true := by
        rw [firstOfDate_iff]
        intro j2 hj2 hj2eq
        exact Nat.find_min hex hj2 ⟨lt_trans hj2 hi0len, hj2eq.trans hi0date⟩
      refine ⟨((bs.getD (Nat.find hex) default).ts,
        portfolioValue (runUpTo lookback cash bs (Nat.find hex)).broker
          (bs.getD (Nat.find hex) default).close), ?_, hi0date⟩
      rw [hse]
      unfold expectedSamples expectedUpTo
      exact List.mem_map.mpr ⟨Nat.find hex,
        List.mem_filter.mpr ⟨List.mem_range.mpr hi0len, hfirst⟩, rfl⟩
    · rintro ⟨p, hp, rfl⟩
      rw [hse] at hp
      unfold expectedSamples expectedUpTo at hp
      obtain ⟨i, hifil, rfl⟩ := List.mem_map.mp hp
      obtain ⟨hir, _⟩ := List.mem_filter.mp hifil
      have hilen := List.mem_range.mp hir
      exact ⟨bs.getD i default,
        by rw [List.getD_eq_getElem bs default hilen]
           exact List.getElem_mem hilen,
        rfl⟩

/-- Witness for C4: in the spec §8 scenario (strictly increasing
timestamps, all bars on calendar day 0), the recorded samples equal the
expected ones. -/
theorem sampler_one_per_date_witness :
    scenarioBars.Pairwise (fun a b => a.ts < b.ts) ∧
      (runEngine 3 100 scenarioBars).samples
        = expectedSamples 3 100 scenarioBars :=
  ⟨by decide, (sampler_one_per_date 3 100 scenarioBars (by decide)).1⟩

/-- C5: every recorded portfolio value is recomputed from cash and
position — each sample equals `cash + size × close` of the run state at
its bar — and a fill conserves the freshly recomputed portfolio value at
the fill price, so the value never drifts away from
`cash + size × last close` immediately after a fill. -/
theorem sampled_value_recomputed (lookback : Nat) (cash : ℚ) (bs : List Bar)
    (hmono : bs.Pairwise fun a b => a.ts < b.ts) :
    (∀ p ∈ (runEngine lookback cash bs).samples,
      ∃ i, i < bs.length ∧ p.1 = (bs.getD i default).ts ∧
        p.2 = (runUpTo lookback cash bs i).broker.cash
          + ((runUpTo lookback cash bs i).broker.size : ℚ)
            * (bs.getD i default).close) ∧
    ∀ (b : Broker) (s : Side) (q : ℚ),
      portfolioValue (applyFill b s q) q = portfolioValue b q := by
  refine ⟨?_, ?_⟩
  · intro p hp
    rw [samples_eq_expected lookback cash bs hmono] at hp
    unfold expectedSamples expectedUpTo at hp
    obtain ⟨i, hifil, rfl⟩ := List.mem_map.mp hp
    obtain ⟨hir, _⟩ := List.mem_filter.mp hifil
    exact ⟨i, List.mem_range.mp hir, rfl, rfl⟩
  · intro b s q
    cases s <;> simp [portfolioValue, applyFill] <;> ring

/-- Witness for C5: the single sample `(0, 100)` of the spec §8 scenario
is the value recomputed from the state at its bar. -/
theorem sampled_value_recomputed_witness :
    ∃ i, i < scenarioBars.length ∧
      ((0 : Nat), (100 : ℚ)).1 = (scenarioBars.getD i default).ts ∧
      ((0 : Nat), (100 : ℚ)).2 = (runUpTo 3 100 scenarioBars i).broker.cash
        + ((runUpTo 3 100 scenarioBars i).broker.size : ℚ)
          * (scenarioBars.getD i default).close :=
  (sampled_value_recomputed 3 100 scenarioBars (by decide)).1 (0, 100)
    (by rw [scenario_samples_eq]; exact List.mem_cons_self _ _)


/-- A frame produced by `ohlcvTry` passes through the except wrapper
unchanged. -/
theorem ohlcv_of_ok (r : ApiOutcome) (f : Frame)
    (h : ohlcvTry r = Except.ok f) : ohlcv r = Except.ok f := by
  unfold ohlcv
  rw [h]

/-- An exception of a caught class (`requests.RequestException`,
`ValueError`) is swallowed by the except clauses: `ohlcv` returns the
empty frame. -/
theorem ohlcv_of_caught (r : ApiOutcome) (e : PyError)
    (h : ohlcvTry r = Except.error e) (hc : isCaught e = true) :
    ohlcv r = Except.ok emptyFrame := by
  unfold ohlcv
  rw [h]
  show (if isCaught e = true then Except.ok emptyFrame
    else Except.error e) = Except.ok emptyFrame
  rw [if_pos hc]

/-- An exception of an uncaught class (`KeyError`, `AttributeError`)
escapes `ohlcv` to its caller. -/
theorem ohlcv_of_uncaught (r : ApiOutcome) (e : PyError)
    (h : ohlcvTry r = Except.error e) (hc : isCaught e = false) :
    ohlcv r = Except.error e := by
  unfold ohlcv
  rw [h]
  show (if isCaught e = true then Except.ok emptyFrame
    else Except.error e) = Except.error e
  rw [hc, if_neg Bool.false_ne_true]

/-- Padding a series to its own length is the identity (every entry
present, no `NaN`). -/
theorem padTo_eq_map_some (xs : List ℚ) (n : Nat) (h : n = xs.length) :
    padTo n xs = xs.map some := by
  subst h
  induction xs with
  | nil => rfl
  | cons x xs ih => simp [padTo, List.length_cons, ih]

/-- C9 counterexample: on the empty payload `{s: "ok", t: []}` the
`ValueError` raised inside `ohlcv`'s try block is caught there — `ohlcv`
returns the empty DataFrame, no error reaches `run_backtest`'s caller, and
the engine run begins and completes normally at the starting cash; no
`DataSourceError` is surfaced. -/
theorem datasource_error_not_surfaced :
    ohlcvTry (ApiOutcome.json (JsonBody.dict
        ⟨some "ok", some [], none, none, none, none, none⟩))
        = Except.error
            (PyError.valueError "Invalid or empty data returned from API") ∧
      ohlcv (ApiOutcome.json (JsonBody.dict
          ⟨some "ok", some [], none, none, none, none, none⟩))
        = Except.ok emptyFrame ∧
      runBacktest (ApiOutcome.json (JsonBody.dict
          ⟨some "ok", some [], none, none, none, none, none⟩))
        = Except.ok (initState 101) :=
  ⟨rfl, rfl, rfl⟩

/-- C9 amended: there is no `DataSourceError`.  A failure of `ohlcv`'s try
block belonging to a caught class (network error; empty or missing `t`;
status ≠ `"ok"`; DataFrame column/index length mismatch) is swallowed
inside `ohlcv`, which returns an empty DataFrame, and `run_backtest`
proceeds to run the Engine loop over zero bars, completing normally at the
starting cash; a failure outside the caught classes (non-dict JSON body,
or a missing `s`/`o`/`h`/`l`/`c`/`v` key with non-empty `t`) propagates
uncaught to `run_backtest`'s caller before the Engine loop starts, and the
run never begins. -/
theorem malformed_feed_split (r : ApiOutcome) (e : PyError)
    (h : ohlcvTry r = Except.error e) :
    (isCaught e = true → ohlcv r = Except.ok emptyFrame ∧
        runBacktest r = Except.ok (initState 101)) ∧
      (isCaught e = false → ohlcv r = Except.error e ∧
        runBacktest r = Except.error e) := by
  constructor
  · intro hc
    have hf := ohlcv_of_caught r e h hc
    refine ⟨hf, ?_⟩
    unfold runBacktest
    rw [hf]
    rfl
  · intro hc
    have hf := ohlcv_of_uncaught r e h hc
    refine ⟨hf, ?_⟩
    unfold runBacktest
    rw [hf]
    rfl

/-- Witness for C9 (amended): the empty-payload case, whose `ValueError`
is of the caught class. -/
theorem malformed_feed_split_witness :
    (isCaught (PyError.valueError "Invalid or empty data returned from API")
        = true →
      ohlcv (ApiOutcome.json (JsonBody.dict
          ⟨some "ok", some [], none, none, none, none, none⟩))
        = Except.ok emptyFrame ∧
      runBacktest (ApiOutcome.json (JsonBody.dict
          ⟨some "ok", some [], none, none, none, none, none⟩))
        = Except.ok (initState 101)) ∧
    (isCaught (PyError.valueError "Invalid or empty data returned from API")
        = false →
      ohlcv (ApiOutcome.json (JsonBody.dict
          ⟨some "ok", some [], none, none, none, none, none⟩))
        = Except.error
            (PyError.valueError "Invalid or empty data returned from API") ∧
      runBacktest (ApiOutcome.json (JsonBody.dict
          ⟨some "ok", some [], none, none, none, none, none⟩))
        = Except.error
            (PyError.valueError "Invalid or empty data returned from API")) :=
  malformed_feed_split (ApiOutcome.json (JsonBody.dict
    ⟨some "ok", some [], none, none, none, none, none⟩))
    (PyError.valueError "Invalid or empty data returned from API") rfl

/-- C10 counterexample: on the payload `{t: [1]}` — non-empty `t`, missing
`s` — `data['s']` raises a `KeyError`, which is neither of the caught
exception classes, so `ohlcv` raises it to its caller instead of returning
a DataFrame. -/
theorem ohlcv_raises_keyerror :
    ohlcv (ApiOutcome.json (JsonBody.dict
        ⟨none, some [1], none, none, none, none, none⟩))
        = Except.error (PyError.keyError "s") ∧
      isCaught (PyError.keyError "s") = false :=
  ⟨rfl, rfl⟩

/-- C10 amended: `ohlcv` catches only `requests.RequestException` and
`ValueError` — a network failure, an empty or missing `t`, a status other
than `"ok"`, or a DataFrame column/index length mismatch yields an empty
DataFrame; but a non-dict JSON body raises an uncaught `AttributeError`,
and a payload with non-empty `t` missing one of the `s`/`o`/`h`/`l`/`c`/`v`
keys raises an uncaught `KeyError`, surfaced to the caller.  On a valid
payload the result is the DataFrame whose DateTime/Open/High/Low/Close/
Volume columns are built from the response arrays (shorter value columns
are `NaN`-padded by pandas, never an error). -/
theorem ohlcv_except_behaviour :
    (∀ msg, ohlcv (ApiOutcome.netError msg) = Except.ok emptyFrame) ∧
      (ohlcv (ApiOutcome.json JsonBody.nonDict)
        = Except.error
            (PyError.attributeError "list object has no attribute get")) ∧
      (∀ r e, ohlcvTry r = Except.error e → isCaught e = true →
        ohlcv r = Except.ok emptyFrame) ∧
      (∀ r e, ohlcvTry r = Except.error e → isCaught e = false →
        ohlcv r = Except.error e) ∧
      (∀ t0 ts oo hh ll cc vv,
        ohlcv (ApiOutcome.json (JsonBody.dict
            ⟨none, some (t0 :: ts), oo, hh, ll, cc, vv⟩))
          = Except.error (PyError.keyError "s")) ∧
      (∀ t0 ts hh ll cc vv,
        ohlcv (ApiOutcome.json (JsonBody.dict
            ⟨some "ok", some (t0 :: ts), none, hh, ll, cc, vv⟩))
          = Except.error (PyError.keyError "o")) ∧
      (∀ t0 ts os hs ls cs vs,
        os.length = (t0 :: ts).length → hs.length = (t0 :: ts).length →
        ls.length = (t0 :: ts).length → cs.length = (t0 :: ts).length →
        vs.length = (t0 :: ts).length →
        ohlcv (ApiOutcome.json (JsonBody.dict
            ⟨some "ok", some (t0 :: ts), some os, some hs, some ls, some cs,
              some vs⟩))
          = Except.ok ⟨t0 :: ts, os.map some, hs.map some, ls.map some,
              cs.map some, vs.map some⟩) := by
  refine ⟨fun msg => rfl, rfl, ohlcv_of_caught, ohlcv_of_uncaught,
    fun t0 ts oo hh ll cc vv => rfl, fun t0 ts hh ll cc vv => rfl, ?_⟩
  intro t0 ts os hs ls cs vs ho hh hl hc hv
  have htry : ohlcvTry (ApiOutcome.json (JsonBody.dict
      ⟨some "ok", some (t0 :: ts), some os, some hs, some ls, some cs,
        some vs⟩))
      = Except.ok ⟨t0 :: ts, os.map some, hs.map some, ls.map some,
          cs.map some, vs.map some⟩ := by
    show buildFrame (t0 :: ts) (some os) (some hs) (some ls) (some cs)
      (some vs) = _
    simp only [buildFrame]
    rw [ho, hh, hl, hc, hv]
    simp only [Nat.max_self]
    rw [if_pos trivial, padTo_eq_map_some os _ ho.symm,
      padTo_eq_map_some hs _ hh.symm, padTo_eq_map_some ls _ hl.symm,
      padTo_eq_map_some cs _ hc.symm, padTo_eq_map_some vs _ hv.symm]
  exact ohlcv_of_ok _ _ htry

/-- Witness for C10 (amended): a network error yields the empty frame, and
a one-row valid payload yields the frame of its arrays. -/
theorem ohlcv_except_behaviour_witness :
    ohlcv (ApiOutcome.netError "connection refused") = Except.ok emptyFrame ∧
      ohlcv (ApiOutcome.json (JsonBody.dict
          ⟨some "ok", some [5], some [1], some [2], some [3], some [4],
            some [6]⟩))
        = Except.ok ⟨[5], [some 1], [some 2], [some 3], [some 4], [some 6]⟩ :=
  ⟨ohlcv_except_behaviour.1 "connection refused",
    ohlcv_except_behaviour.2.2.2.2.2.2 5 [] [1] [2] [3] [4] [6]
      rfl rfl rfl rfl rfl⟩
